import Mathlib

/-!
Verification development for the looper pipeline-submission engine
(`looper/looper.py` and `looper/project.py`).

The Python source is shallowly embedded: pure helpers become Lean
functions, the stateful drivers (`Cleaner`, `Destroyer`, `Runner`,
`Collator`, `Checker`, `LooperCounter`) become explicit state-passing
functions, exceptions become `Except`, and the filesystem is modelled as
the list of currently existing paths (removing a directory also removes
every path below it).  External collaborators (the results of
`glob`, `fetch_flag_files`, the effect of executing a cleanup shell
script, the interactive answer of `query_yes_no`) are parameters of the
embedded drivers.
-/

/-- Exceptions raised by the embedded code: `MisconfigurationException`
(from `looper.exceptions`) and Python's builtin `ValueError`. -/
inductive LooperError where
  | misconfiguration (msg : String)
  | valueError (msg : String)
deriving DecidableEq, Repr

/-! ### Character-list string helpers

Python's `str.split`, `str.strip` and substring test, embedded as
structurally recursive functions on `List Char` so that every use is
kernel-evaluable. -/

/-- Boolean test that the first list is a prefix of the second. -/
def isPrefixChars : List Char → List Char → Bool
  | [], _ => true
  | _ :: _, [] => false
  | a :: as, b :: bs => a == b && isPrefixChars as bs

/-- Boolean substring test: the first list occurs contiguously in the second. -/
def containsSub (needle : List Char) : List Char → Bool
  | [] => needle.isEmpty
  | c :: rest => isPrefixChars needle (c :: rest) || containsSub needle rest

/-- Python `s.split(sep)` for a single-character separator:
splitting the empty string yields one empty field, exactly as in Python. -/
def splitOnCharList (sep : Char) : List Char → List (List Char)
  | [] => [[]]
  | c :: rest =>
    match splitOnCharList sep rest with
    | [] => if c == sep then [[], []] else [[c]]
    | g :: gs => if c == sep then [] :: g :: gs else (c :: g) :: gs

/-- Python `s.strip()`: drop whitespace from both ends. -/
def pyStrip (cs : List Char) : List Char :=
  ((cs.dropWhile Char.isWhitespace).reverse.dropWhile Char.isWhitespace).reverse

/-! ### `uniqify` (looper.py lines 588-595)

`seen = set(); return [x for x in seq if not (x in seen or seen_add(x))]`
-- keep the first occurrence of each element, in input order.  The
membership set is carried explicitly. -/

/-- The comprehension of `uniqify` with the `seen` set made explicit. -/
def uniqifyAux {α : Type u} [DecidableEq α] (seen : List α) : List α → List α
  | [] => []
  | x :: xs => if x ∈ seen then uniqifyAux seen xs else x :: uniqifyAux (x :: seen) xs

/-- `uniqify(seq)` from looper.py: first occurrences, input order preserved. -/
def uniqify {α : Type u} [DecidableEq α] (seq : List α) : List α :=
  uniqifyAux [] seq

/-! ### Filesystem model and `Cleaner` / `Destroyer` (looper.py lines 130-215, 554-585)

The on-disk state is the list of existing paths.  `rmtree`/`os.remove`
on a path removes that path and everything strictly below it. -/

/-- `q` lies strictly below directory `p` (i.e. `p ++ "/"` is a prefix of `q`). -/
def pathIsUnder (p q : String) : Bool :=
  isPrefixChars (p.toList ++ [Char.ofNat 47]) q.toList

/-- Effect of `os.remove(path)` / `shutil.rmtree(path)` on the modelled
filesystem: the path itself and everything below it disappear. -/
def removePath (fs : List String) (p : String) : List String :=
  fs.filter (fun q => !(q == p || pathIsUnder p q))

/-- `_remove_or_dry_run(paths, dry_run)` from looper.py lines 554-575:
for each path that exists, remove it unless `dry_run` is set; paths that
do not exist are only reported. -/
def remove_or_dry_run (fs : List String) (paths : List String) (dry_run : Bool) : List String :=
  paths.foldl
    (fun acc path =>
      if acc.contains path then
        if dry_run then acc else removePath acc path
      else acc)
    fs

/-- The project state a `Cleaner`/`Destroyer` works on: sample names, the
results folder, and the project output directory. -/
structure ProjectFS where
  samples : List String
  resultsFolder : String
  outputDir : String
deriving DecidableEq

/-- Modelled from the spec: `utils.sample_folder` is not under `src/`;
per the spec each sample has "a derived output directory", placed inside
the project's results folder. -/
def sample_folder (prj : ProjectFS) (s : String) : String :=
  prj.resultsFolder ++ "/" ++ s

/-- Modelled from the spec: `utils.get_file_for_project` is not under
`src/`; it resolves a summary artifact name inside the project output
directory. -/
def get_file_for_project (prj : ProjectFS) (f : String) : String :=
  prj.outputDir ++ "/" ++ f

/-- `destroy_summary(prj, dry_run)` from looper.py lines 578-585: remove
(or merely list, on dry run) the four summary artifacts. -/
def destroy_summary (prj : ProjectFS) (fs : List String) (dry_run : Bool) : List String :=
  remove_or_dry_run fs
    [get_file_for_project prj ("summary.html"),
     get_file_for_project prj ("stats_summary.tsv"),
     get_file_for_project prj ("objs_summary.tsv"),
     get_file_for_project prj ("reports")] dry_run

/-- The fields of the CLI namespace consulted by `Cleaner`/`Destroyer`. -/
structure DestroyArgs where
  dry_run : Bool
  force_yes : Bool
deriving DecidableEq

/-- Result of a `Cleaner`/`Destroyer` call: final filesystem, return
code, and whether the interactive confirmation prompt was reached. -/
structure ExecResult where
  fs : List String
  ret : Int
  prompted : Bool
deriving DecidableEq, Repr

/-- The `preview_flag=False` pass of `Destroyer.__call__` (looper.py
lines 177-200): remove each sample output folder, then the summary
artifacts, and return 0. -/
def destroyer_exec (prj : ProjectFS) (fs : List String) (dry_run : Bool) : ExecResult :=
  let fs1 := prj.samples.foldl
    (fun acc s => remove_or_dry_run acc [sample_folder prj s] dry_run) fs
  let fs2 := destroy_summary prj fs1 dry_run
  ⟨fs2, 0, false⟩

/-- `Destroyer.__call__(args)` (looper.py lines 174-215), entered with
`preview_flag=True`.  The preview loop over samples only logs the
folders, but `destroy_summary` runs unconditionally with `args.dry_run`
before the dry-run check and the confirmation prompt; on dry run return
0; on declined confirmation return 1; otherwise recurse with
`preview_flag=False`.  `userConfirms` is the answer `query_yes_no`
would obtain. -/
def destroyer_call (prj : ProjectFS) (fs : List String) (args : DestroyArgs)
    (userConfirms : Bool) : ExecResult :=
  let fs1 := destroy_summary prj fs args.dry_run
  if args.dry_run then ⟨fs1, 0, false⟩
  else
    let prompted := !args.force_yes
    if args.force_yes || userConfirms then
      let r := destroyer_exec prj fs1 args.dry_run
      ⟨r.fs, r.ret, prompted⟩
    else ⟨fs1, 1, prompted⟩

/-- The `preview_flag=False` pass of `Cleaner.__call__` (looper.py lines
140-157): execute every `*_cleanup.sh` script of every sample and return
0.  The glob result (`cleanupFiles`) and the effect of `sh f` on the
filesystem (`runScript`) are external inputs. -/
def cleaner_exec (prj : ProjectFS) (cleanupFiles : String → List String)
    (runScript : String → List String → List String) (fs : List String) : ExecResult :=
  let fs1 := prj.samples.foldl
    (fun acc s => (cleanupFiles s).foldl (fun a f => runScript f a) acc) fs
  ⟨fs1, 0, false⟩

/-- `Cleaner.__call__(args)` (looper.py lines 130-171), entered with
`preview_flag=True`: the preview loop only lists the cleanup scripts;
on dry run return 0 before the prompt; on declined confirmation return
1; otherwise recurse with `preview_flag=False`. -/
def cleaner_call (prj : ProjectFS) (cleanupFiles : String → List String)
    (runScript : String → List String → List String) (fs : List String)
    (args : DestroyArgs) (userConfirms : Bool) : ExecResult :=
  if args.dry_run then ⟨fs, 0, false⟩
  else
    let prompted := !args.force_yes
    if args.force_yes || userConfirms then
      let r := cleaner_exec prj cleanupFiles runScript fs
      ⟨r.fs, r.ret, prompted⟩
    else ⟨fs, 1, prompted⟩

/-! ### `Checker` (looper.py lines 76-127) -/

/-- Modelled from the spec: `const.FLAGS` is not under `src/`; per the
spec the flag vocabulary is waiting, running, completed, failed. -/
def FLAGS : List String := ["waiting", "running", "completed", "failed"]

/-- The `flags` argument of `Checker.__call__`: a single string, an
iterable of strings, or `None`. -/
inductive FlagsArg where
  | noFlags
  | str (s : String)
  | many (l : List String)

/-- Lexicographic code-point comparison of character lists, the order
Python uses to compare strings. -/
def charListLt : List Char → List Char → Bool
  | _, [] => false
  | [], _ :: _ => true
  | a :: as, b :: bs =>
      if a.toNat < b.toNat then true
      else if b.toNat < a.toNat then false
      else charListLt as bs

/-- Python's `<` on strings. -/
def strLt (a b : String) : Bool :=
  charListLt a.toList b.toList

/-- Insert a string into an already sorted list (ascending). -/
def insertSorted (x : String) : List String → List String
  | [] => [x]
  | y :: ys => if strLt x y then x :: y :: ys else y :: insertSorted x ys

/-- Python `sorted` on a list of strings. -/
def sortStrings (l : List String) : List String :=
  l.foldr insertSorted []

/-- Normalization of the `flags` argument (looper.py lines 92-93):
`sorted([flags] if isinstance(flags, str) else list(flags or FLAGS))`;
note that an empty list is falsy and also falls back to `FLAGS`. -/
def checker_flags (flags : FlagsArg) : List String :=
  sortStrings (match flags with
    | FlagsArg.str s => [s]
    | FlagsArg.many l => if l = [] then FLAGS else l
    | FlagsArg.noFlags => FLAGS)

/-- The per-flag file lists logged by the second loop of
`Checker.__call__` (looper.py lines 109-127): when exactly one flag was
requested a non-empty list is logged with no bound; independently, any
list with `0 < len(files) <= max_file_count` is logged.  `filesByFlag`
is the mapping returned by the external `fetch_flag_files`. -/
def checker_displayed (flags : FlagsArg) (filesByFlag : String → List String)
    (max_file_count : Nat) : List (String × List String) :=
  let fl := checker_flags flags
  fl.flatMap (fun flag =>
    let files := filesByFlag flag
    (if fl.length = 1 ∧ 0 < files.length then [(flag, files)] else []) ++
    (if 0 < files.length ∧ files.length ≤ max_file_count then [(flag, files)] else []))

/-! ### `Collator.__init__` (looper.py lines 218-234) and
`Project.pipeline_interfaces` (project.py lines 236-247) -/

/-- `Project.pipeline_interfaces`: the flat list of all interfaces in
`_interfaces_by_sample` (`[i for s in self._interfaces_by_sample.values() for i in s]`).
The argument is the `_interfaces_by_sample` mapping as an association list. -/
def pipeline_interfaces (interfacesBySample : List (String × List String)) : List String :=
  (interfacesBySample.map (fun p => p.2)).flatten

/-- The message of the `MisconfigurationException` raised by
`Collator.__init__` (quoting apart, with the two config-key names from
`looper.const` interpolated). -/
def collator_init_msg : String :=
  "Looper requires at least one pointer to project-level in a pipeline interface file, set with the pipeline_interfaces key in the project config file and define project in project section in that file"

/-- `Collator.__init__(prj)`: raise `MisconfigurationException` when the
project has no pipeline interfaces, else construct successfully. -/
def collator_init (interfacesBySample : List (String × List String)) :
    Except LooperError Unit :=
  if pipeline_interfaces interfacesBySample = [] then
    Except.error (LooperError.misconfiguration collator_init_msg)
  else Except.ok ()

/-! ### `_proc_resources_spec` (looper.py lines 661-686) -/

/-- Modelled from the spec: `const.EXAMPLE_COMPUTE_SPEC_FMT` is not
under `src/`; it is "an example of the correct format" of the itemized
comma-separated key=value compute specification. -/
def EXAMPLE_COMPUTE_SPEC_FMT : String := "k1=v1,k2=v2"

/-- The fixed message of the `ValueError` raised by
`_proc_resources_spec` (looper.py lines 683-685). -/
def proc_spec_err_msg : String :=
  "Could not correctly parse itemized compute specification. Correct format: "
    ++ EXAMPLE_COMPUTE_SPEC_FMT

/-- Python dict insertion `data[k] = v`: overwrite in place if the key
exists, append otherwise. -/
def dictInsert (d : List (String × String)) (k v : String) : List (String × String) :=
  if d.any (fun p => p.1 == k) then
    d.map (fun p => if p.1 == k then (k, v) else p)
  else d ++ [(k, v)]

/-- `kvs = spec.strip().split(",")`. -/
def compute_kvs (s : String) : List String :=
  (splitOnCharList (Char.ofNat 44) (pyStrip s.toList)).map String.mk

/-- `kv.split("=")`. -/
def eq_parts (kv : String) : List String :=
  (splitOnCharList (Char.ofNat 61) kv.toList).map String.mk

/-- The tokens collected in `bads`: those whose split around `=` does
not unpack into exactly two parts. -/
def compute_bads (s : String) : List String :=
  (compute_kvs s).filter (fun kv => (eq_parts kv).length != 2)

/-- The `data` dict accumulated over the well-formed `k=v` tokens. -/
def compute_data (s : String) : List (String × String) :=
  (compute_kvs s).foldl
    (fun d kv => match eq_parts kv with
      | [k, v] => dictInsert d k v
      | _ => d) []

/-- `_proc_resources_spec(spec)`: empty or missing spec yields no
compute variables; if any token is malformed, raise `ValueError` with
the fixed message (the collected `bads` are not interpolated into it);
otherwise return the parsed mapping. -/
def proc_resources_spec (spec : Option String) :
    Except LooperError (List (String × String)) :=
  match spec with
  | none => Except.ok []
  | some s =>
      if s = "" then Except.ok []
      else if compute_bads s = [] then Except.ok (compute_data s)
      else Except.error (LooperError.valueError proc_spec_err_msg)

/-! ### Failure aggregation of `Runner.__call__` (looper.py lines 409-421) -/

/-- Modelled from the spec: `const.SUBMISSION_FAILURE_MESSAGE` is not
under `src/`; it is the synthetic reason under which samples with
conductor-level submission failures are reported. -/
def SUBMISSION_FAILURE_MESSAGE : String := "Job submission failure"

/-- One `samples_by_reason[f].add(sample)` step on the reason-to-samples
mapping. -/
def sbr_add (m : String → Finset String) (reason sample : String) :
    String → Finset String :=
  fun r => if r = reason then insert sample (m r) else m r

/-- The first loop (lines 412-414): for every recorded (sample, reasons)
entry, add the sample under each of its reasons. -/
def sbr_record_failures (failures : List (String × List String))
    (m : String → Finset String) : String → Finset String :=
  failures.foldl (fun m p => p.2.foldl (fun m f => sbr_add m f p.1) m) m

/-- The second loop (lines 416-421): for every conductor with a
non-empty `failed_samples`, union that set into the synthetic
submission-failure reason. -/
def sbr_record_conductors (conductorFails : List (List String))
    (m : String → Finset String) : String → Finset String :=
  conductorFails.foldl
    (fun m cf =>
      if cf = [] then m
      else fun r =>
        if r = SUBMISSION_FAILURE_MESSAGE then m r ∪ cf.toFinset else m r) m

/-- The complete reason→samples view built at end of run, starting from
the empty `defaultdict(set)`. -/
def samples_by_reason (failures : List (String × List String))
    (conductorFails : List (List String)) : String → Finset String :=
  sbr_record_conductors conductorFails
    (sbr_record_failures failures (fun _ => ∅))

/-! ### `LooperCounter` and `_submission_status_text` (looper.py lines 615-658) -/

/-- `colorama.Fore.CYAN`. -/
def Fore_CYAN : String := "\x1b[36m"

/-- `colorama.Style.RESET_ALL`. -/
def Style_RESET_ALL : String := "\x1b[0m"

/-- `_submission_status_text(curr, total, name, pipeline_name, type, color)`:
the colored one-line status; the pipeline part is appended only when
`pipeline_name` is truthy (neither `None` nor empty). -/
def submission_status_text (curr total : Nat) (name : String)
    (pipeline_name : Option String) (ty : String) (color : String) : String :=
  let txt := color ++ "## [" ++ toString curr ++ " of " ++ toString total
      ++ "] " ++ ty ++ ": " ++ name
  let txt2 := match pipeline_name with
    | some p => if p = "" then txt else txt ++ ("; pipeline: " ++ p)
    | none => txt
  txt2 ++ Style_RESET_ALL

/-- The running-count-plus-total state of `LooperCounter`. -/
structure LooperCounter where
  count : Nat
  total : Nat
deriving DecidableEq, Repr

/-- `LooperCounter.show(name, type, pipeline_name)`: increment the
running count, then format the status line with the incremented count. -/
def LooperCounter.show_status (c : LooperCounter) (name : String) (ty : String)
    (pipeline_name : Option String) : LooperCounter × String :=
  ({ c with count := c.count + 1 },
   submission_status_text (c.count + 1) c.total name pipeline_name ty Fore_CYAN)

/-- `LooperCounter.reset()`: zero the running count. -/
def LooperCounter.reset (c : LooperCounter) : LooperCounter :=
  { c with count := 0 }

/-! ### The sample-bounding and iteration skeleton of `Runner.__call__`
(looper.py lines 318-328 and 352-385) -/

/-- The skip reason recorded when a sample matches no pipeline interface
(looper.py line 357). -/
def NO_PIFACE_MSG : String := "No pipeline interfaces defined"

/-- What the sample loop of `Runner.__call__` accumulates: the samples
iterated, the samples added to `processed_samples`, the per-sample skip
reasons, and `num_commands_possible`. -/
structure RunnerOutcome where
  iterated : List String
  processed : List String
  failures : List (String × List String)
  numCommandsPossible : Nat
deriving DecidableEq, Repr

/-- One iteration of the sample loop (looper.py lines 352-376): a sample
with no pipeline interfaces is recorded as skipped; otherwise it is
processed and contributes one possible command per matched interface. -/
def runner_step (pif : String → List String) (st : RunnerOutcome) (s : String) :
    RunnerOutcome :=
  let pis := pif s
  if pis.isEmpty then
    { iterated := st.iterated ++ [s],
      processed := st.processed,
      failures := st.failures ++ [(s, [NO_PIFACE_MSG])],
      numCommandsPossible := st.numCommandsPossible }
  else
    { iterated := st.iterated ++ [s],
      processed := st.processed ++ [s],
      failures := st.failures,
      numCommandsPossible := st.numCommandsPossible + pis.length }

/-- Lines 318-328: `upper_sample_bound` is the sample count when no
limit is given; a negative limit raises `ValueError`; otherwise the
bound is `min(limit, num_samples)`. -/
def runner_bound (limit : Option Int) (num_samples : Nat) : Except LooperError Nat :=
  match limit with
  | none => Except.ok num_samples
  | some l =>
      if l < 0 then
        Except.error (LooperError.valueError
          ("Invalid number of samples to run: " ++ toString l))
      else Except.ok (min l.toNat num_samples)

/-- The bounding-and-iteration skeleton of `Runner.__call__`: compute
the bound (propagating the `ValueError`, which aborts before any sample
is iterated or any job submitted), then fold the sample loop over
`self.prj.samples[:upper_sample_bound]`. -/
def runner_call (samples : List String) (pif : String → List String)
    (limit : Option Int) : Except LooperError RunnerOutcome :=
  match runner_bound limit samples.length with
  | Except.error e => Except.error e
  | Except.ok bound =>
      Except.ok ((samples.take bound).foldl (runner_step pif) ⟨[], [], [], 0⟩)

/-! ### Helper lemmas -/

theorem remove_or_dry_run_dry (paths : List String) :
    ∀ fs, remove_or_dry_run fs paths true = fs := by
  induction paths with
  | nil => intro fs; rfl
  | cons p ps ih =>
      intro fs
      have h : remove_or_dry_run fs (p :: ps) true
          = remove_or_dry_run (if fs.contains p then fs else fs) ps true := rfl
      rw [h, ite_self]
      exact ih fs

theorem destroy_summary_dry (prj : ProjectFS) (fs : List String) :
    destroy_summary prj fs true = fs := by
  unfold destroy_summary
  exact remove_or_dry_run_dry _ fs

theorem mem_uniqifyAux {α : Type u} [DecidableEq α] (l : List α) :
    ∀ (seen : List α) (a : α), a ∈ uniqifyAux seen l ↔ a ∈ l ∧ a ∉ seen := by
  induction l with
  | nil => intro seen a; simp [uniqifyAux]
  | cons x xs ih =>
      intro seen a
      by_cases hx : x ∈ seen
      · rw [show uniqifyAux seen (x :: xs) = uniqifyAux seen xs from by
          simp [uniqifyAux, hx]]
        rw [ih]
        simp only [List.mem_cons]
        constructor
        · rintro ⟨h1, h2⟩; exact ⟨Or.inr h1, h2⟩
        · rintro ⟨h1 | h1, h2⟩
          · exact absurd hx (h1 ▸ h2)
          · exact ⟨h1, h2⟩
      · rw [show uniqifyAux seen (x :: xs) = x :: uniqifyAux (x :: seen) xs from by
          simp [uniqifyAux, hx]]
        simp only [List.mem_cons, ih, List.mem_cons]
        constructor
        · rintro (rfl | ⟨h1, h2⟩)
          · exact ⟨Or.inl rfl, hx⟩
          · exact ⟨Or.inr h1, fun hs => h2 (Or.inr hs)⟩
        · rintro ⟨rfl | h1, h2⟩
          · exact Or.inl rfl
          · by_cases hax : a = x
            · exact Or.inl hax
            · exact Or.inr ⟨h1, fun hs => h2 (by
                rcases hs with rfl | hs
                · exact absurd rfl hax
                · exact hs)⟩

theorem nodup_uniqifyAux {α : Type u} [DecidableEq α] (l : List α) :
    ∀ seen : List α, (uniqifyAux seen l).Nodup := by
  induction l with
  | nil => intro seen; simp [uniqifyAux]
  | cons x xs ih =>
      intro seen
      by_cases hx : x ∈ seen
      · simpa [uniqifyAux, hx] using ih seen
      · rw [show uniqifyAux seen (x :: xs) = x :: uniqifyAux (x :: seen) xs from by
          simp [uniqifyAux, hx]]
        refine List.nodup_cons.mpr ⟨?_, ih (x :: seen)⟩
        rw [mem_uniqifyAux]
        rintro ⟨-, h2⟩
        exact h2 (List.mem_cons_self x seen)

theorem sublist_uniqifyAux {α : Type u} [DecidableEq α] (l : List α) :
    ∀ seen : List α, (uniqifyAux seen l).Sublist l := by
  induction l with
  | nil => intro seen; simp [uniqifyAux]
  | cons x xs ih =>
      intro seen
      by_cases hx : x ∈ seen
      · rw [show uniqifyAux seen (x :: xs) = uniqifyAux seen xs from by
          simp [uniqifyAux, hx]]
        exact (ih seen).cons x
      · rw [show uniqifyAux seen (x :: xs) = x :: uniqifyAux (x :: seen) xs from by
          simp [uniqifyAux, hx]]
        exact (ih (x :: seen)).cons₂ x

theorem uniqifyAux_of_nodup {α : Type u} [DecidableEq α] (l : List α) :
    ∀ seen : List α, l.Nodup → (∀ a ∈ l, a ∉ seen) → uniqifyAux seen l = l := by
  induction l with
  | nil => intro seen _ _; rfl
  | cons x xs ih =>
      intro seen hnd hdisj
      have hx : x ∉ seen := hdisj x (List.mem_cons_self x xs)
      rw [show uniqifyAux seen (x :: xs) = x :: uniqifyAux (x :: seen) xs from by
        simp [uniqifyAux, hx]]
      have hnd' := List.nodup_cons.mp hnd
      congr 1
      refine ih (x :: seen) hnd'.2 ?_
      intro a ha
      intro hmem
      rcases List.mem_cons.mp hmem with rfl | hmem
      · exact hnd'.1 ha
      · exact hdisj a (List.mem_cons_of_mem x ha) hmem

theorem uniqifyAux_congr_seen {α : Type u} [DecidableEq α] (l : List α) :
    ∀ s₁ s₂ : List α, (∀ a, a ∈ s₁ ↔ a ∈ s₂) → uniqifyAux s₁ l = uniqifyAux s₂ l := by
  induction l with
  | nil => intro s₁ s₂ _; rfl
  | cons x xs ih =>
      intro s₁ s₂ hiff
      by_cases hx : x ∈ s₁
      · have hx2 : x ∈ s₂ := (hiff x).mp hx
        rw [show uniqifyAux s₁ (x :: xs) = uniqifyAux s₁ xs from by
              simp [uniqifyAux, hx],
            show uniqifyAux s₂ (x :: xs) = uniqifyAux s₂ xs from by
              simp [uniqifyAux, hx2]]
        exact ih s₁ s₂ hiff
      · have hx2 : x ∉ s₂ := fun h => hx ((hiff x).mpr h)
        rw [show uniqifyAux s₁ (x :: xs) = x :: uniqifyAux (x :: s₁) xs from by
              simp [uniqifyAux, hx],
            show uniqifyAux s₂ (x :: xs) = x :: uniqifyAux (x :: s₂) xs from by
              simp [uniqifyAux, hx2]]
        congr 1
        refine ih (x :: s₁) (x :: s₂) ?_
        intro a
        simp only [List.mem_cons]
        rw [hiff a]

theorem uniqifyAux_cons_seen {α : Type u} [DecidableEq α] (l : List α) :
    ∀ (b : α) (seen : List α),
      uniqifyAux (b :: seen) l = uniqifyAux seen (l.filter (fun y => y != b)) := by
  induction l with
  | nil => intro b seen; rfl
  | cons x xs ih =>
      intro b seen
      by_cases hxb : x = b
      · subst hxb
        rw [show uniqifyAux (x :: seen) (x :: xs) = uniqifyAux (x :: seen) xs from by
          simp [uniqifyAux]]
        rw [show (x :: xs).filter (fun y => y != x) = xs.filter (fun y => y != x) from by
          simp [List.filter]]
        exact ih x seen
      · rw [show (x :: xs).filter (fun y => y != b)
            = x :: xs.filter (fun y => y != b) from by
          simp [List.filter_cons, hxb]]
        by_cases hx : x ∈ seen
        · rw [show uniqifyAux (b :: seen) (x :: xs) = uniqifyAux (b :: seen) xs from by
              simp [uniqifyAux, hx],
            show uniqifyAux seen (x :: xs.filter (fun y => y != b))
              = uniqifyAux seen (xs.filter (fun y => y != b)) from by
              simp [uniqifyAux, hx]]
          exact ih b seen
        · have hxbs : x ∉ b :: seen := by
            intro h
            rcases List.mem_cons.mp h with h | h
            · exact hxb h
            · exact hx h
          rw [show uniqifyAux (b :: seen) (x :: xs)
                = x :: uniqifyAux (x :: b :: seen) xs from by
              simp [uniqifyAux, hxbs],
            show uniqifyAux seen (x :: xs.filter (fun y => y != b))
                = x :: uniqifyAux (x :: seen) (xs.filter (fun y => y != b)) from by
              simp [uniqifyAux, hx]]
          congr 1
          calc uniqifyAux (x :: b :: seen) xs
              = uniqifyAux (b :: x :: seen) xs :=
                uniqifyAux_congr_seen xs _ _ (by
                  intro a
                  simp only [List.mem_cons]
                  tauto)
            _ = uniqifyAux (x :: seen) (xs.filter (fun y => y != b)) :=
                ih b (x :: seen)

theorem mem_sbr_reasons (reasons : List String) :
    ∀ (sample : String) (m : String → Finset String) (r s : String),
      s ∈ (reasons.foldl (fun m f => sbr_add m f sample) m) r
        ↔ s ∈ m r ∨ (r ∈ reasons ∧ s = sample) := by
  induction reasons with
  | nil => intro sample m r s; simp
  | cons f fs ih =>
      intro sample m r s
      rw [List.foldl_cons, ih]
      by_cases h : r = f
      · subst h
        simp [sbr_add, List.mem_cons]
        tauto
      · simp only [sbr_add]
        rw [if_neg h]
        simp only [List.mem_cons]
        tauto

theorem mem_sbr_failures (failures : List (String × List String)) :
    ∀ (m : String → Finset String) (r s : String),
      s ∈ sbr_record_failures failures m r
        ↔ s ∈ m r ∨ ∃ p ∈ failures, p.1 = s ∧ r ∈ p.2 := by
  induction failures with
  | nil => intro m r s; simp [sbr_record_failures]
  | cons p ps ih =>
      intro m r s
      rw [show sbr_record_failures (p :: ps) m
          = sbr_record_failures ps (p.2.foldl (fun m f => sbr_add m f p.1) m) from rfl]
      rw [ih, mem_sbr_reasons]
      simp only [List.mem_cons]
      constructor
      · rintro ((h | ⟨h1, h2⟩) | ⟨q, hq, h1, h2⟩)
        · exact Or.inl h
        · exact Or.inr ⟨p, Or.inl rfl, h2.symm, h1⟩
        · exact Or.inr ⟨q, Or.inr hq, h1, h2⟩
      · rintro (h | ⟨q, (rfl | hq), h1, h2⟩)
        · exact Or.inl (Or.inl h)
        · exact Or.inl (Or.inr ⟨h2, h1.symm⟩)
        · exact Or.inr ⟨q, hq, h1, h2⟩

theorem mem_sbr_conductors (conductorFails : List (List String)) :
    ∀ (m : String → Finset String) (r s : String),
      s ∈ sbr_record_conductors conductorFails m r
        ↔ s ∈ m r ∨ (r = SUBMISSION_FAILURE_MESSAGE ∧ ∃ cf ∈ conductorFails, s ∈ cf) := by
  induction conductorFails with
  | nil => intro m r s; simp [sbr_record_conductors]
  | cons cf cfs ih =>
      intro m r s
      rw [show sbr_record_conductors (cf :: cfs) m
          = sbr_record_conductors cfs
              (if cf = [] then m
               else fun r =>
                 if r = SUBMISSION_FAILURE_MESSAGE then m r ∪ cf.toFinset else m r)
            from rfl]
      rw [ih]
      by_cases hcf : cf = []
      · subst hcf
        simp
      · by_cases hr : r = SUBMISSION_FAILURE_MESSAGE
        · subst hr
          simp [hcf, List.mem_cons]
          tauto
        · simp [hcf, hr, List.mem_cons]

theorem runner_foldl_iterated (pif : String → List String) (l : List String) :
    ∀ st : RunnerOutcome,
      (l.foldl (runner_step pif) st).iterated = st.iterated ++ l := by
  induction l with
  | nil => intro st; simp
  | cons s ss ih =>
      intro st
      rw [List.foldl_cons, ih]
      by_cases h : (pif s).isEmpty
      · simp [runner_step, h]
      · simp [runner_step, h]

/-! ### Claim theorems -/

/-- C10: `uniqify` returns the subsequence of first occurrences of its
input: the output has no duplicates, contains exactly the elements of
the input, is a sublist of the input, keeps the first occurrence of the
head and drops its later duplicates, and is consequently idempotent. -/
theorem uniqify_first_occurrences {α : Type u} [DecidableEq α] (xs : List α) :
    (uniqify xs).Nodup ∧
    (∀ a, a ∈ uniqify xs ↔ a ∈ xs) ∧
    (uniqify xs).Sublist xs ∧
    uniqify (uniqify xs) = uniqify xs ∧
    (∀ x, uniqify (x :: xs) = x :: uniqify (xs.filter (fun y => y != x))) := by
  refine ⟨nodup_uniqifyAux xs [], ?_, sublist_uniqifyAux xs [], ?_, ?_⟩
  · intro a
    rw [uniqify, mem_uniqifyAux]
    simp
  · exact uniqifyAux_of_nodup _ [] (nodup_uniqifyAux xs []) (by simp)
  · intro x
    rw [show uniqify (x :: xs) = x :: uniqifyAux [x] xs from by
      simp [uniqify, uniqifyAux]]
    congr 1
    exact uniqifyAux_cons_seen xs x []

/-- C5: with `dry_run` set, both `Destroyer` and `Cleaner` return 0
right after the preview phase, remove no filesystem entry, and never
reach the confirmation prompt, whatever the confirmation input would
have been. -/
theorem clean_destroy_dry_run_no_removal (prj : ProjectFS)
    (cleanupFiles : String → List String)
    (runScript : String → List String → List String)
    (fs : List String) (force_yes userConfirms : Bool) :
    destroyer_call prj fs ⟨true, force_yes⟩ userConfirms = ⟨fs, 0, false⟩ ∧
    cleaner_call prj cleanupFiles runScript fs ⟨true, force_yes⟩ userConfirms
      = ⟨fs, 0, false⟩ := by
  constructor
  · show (let fs1 := destroy_summary prj fs true; ExecResult.mk fs1 0 false) = _
    rw [destroy_summary_dry]
  · rfl

/-- C1: the claim that a declined confirmation leaves the on-disk state
untouched fails for `Destroyer`: with a project whose summary file
exists and `dry_run` unset, declining the confirmation returns 1 (as
claimed) but the summary artifact has already been removed by the
preview pass, which calls `destroy_summary` before prompting. -/
theorem destroyer_decline_removes_summary :
    destroyer_call ⟨["s1"], "res", "out"⟩ ["res/s1", "out/summary.html"]
        ⟨false, false⟩ false
      = ⟨["res/s1"], 1, true⟩ := by rfl

/-- C3: the end-of-run reason→samples view is a lossless inversion of
what was recorded: a sample appears under a reason exactly when that
(sample, reason) pair was recorded in `failures`, or the reason is the
synthetic submission-failure message and the sample is in some
conductor's `failed_samples`; sets make each appearance unique. -/
theorem samples_by_reason_lossless (failures : List (String × List String))
    (conductorFails : List (List String)) (reason sample : String) :
    sample ∈ samples_by_reason failures conductorFails reason ↔
      (∃ p ∈ failures, p.1 = sample ∧ reason ∈ p.2) ∨
      (reason = SUBMISSION_FAILURE_MESSAGE ∧ ∃ cf ∈ conductorFails, sample ∈ cf) := by
  unfold samples_by_reason
  rw [mem_sbr_conductors, mem_sbr_failures]
  simp

/-- C2 (as amended): a spec string containing a token that does not
split into exactly one key and one value around the equals sign makes
`_proc_resources_spec` raise a `ValueError` whose message is fixed: it
shows an example of the correct format but does not interpolate the
offending tokens; no compute variables are returned. -/
theorem proc_resources_spec_fixed_error (s : String) (h1 : s ≠ "")
    (h2 : compute_bads s ≠ []) :
    proc_resources_spec (some s)
        = Except.error (LooperError.valueError proc_spec_err_msg) ∧
      containsSub EXAMPLE_COMPUTE_SPEC_FMT.toList proc_spec_err_msg.toList = true := by
  constructor
  · simp [proc_resources_spec, h1, h2]
  · decide

/-- Witness for `proc_resources_spec_fixed_error` at the spec's own
scenario input. -/
theorem proc_resources_spec_fixed_error_witness :
    proc_resources_spec (some ("mem=32000,badtoken,cores=4"))
        = Except.error (LooperError.valueError proc_spec_err_msg) ∧
      containsSub EXAMPLE_COMPUTE_SPEC_FMT.toList proc_spec_err_msg.toList = true :=
  proc_resources_spec_fixed_error ("mem=32000,badtoken,cores=4")
    (by decide) (by decide)

/-- C2 counterexample: on `"mem=32000,badtoken,cores=4"` the parse does
fail, but the raised message does not contain the offending token
`badtoken`, contradicting the claim that all offending tokens are
listed in the message. -/
theorem proc_resources_spec_message_omits_token :
    proc_resources_spec (some ("mem=32000,badtoken,cores=4"))
        = Except.error (LooperError.valueError proc_spec_err_msg) ∧
      containsSub ("badtoken").toList proc_spec_err_msg.toList = false := by
  constructor
  · rfl
  · decide

/-- C4 (as amended): a file list displayed by `Checker` either has at
most `max_file_count` entries, or was displayed by the special
single-flag branch, which reports a non-empty list with no bound. -/
theorem checker_display_bound (flags : FlagsArg)
    (filesByFlag : String → List String) (max_file_count : Nat)
    (e : String × List String)
    (he : e ∈ checker_displayed flags filesByFlag max_file_count) :
    e.2.length ≤ max_file_count ∨ (checker_flags flags).length = 1 := by
  unfold checker_displayed at he
  rw [List.mem_flatMap] at he
  obtain ⟨flag, -, hmem⟩ := he
  rcases List.mem_append.mp hmem with h | h
  · right
    by_cases hc : (checker_flags flags).length = 1 ∧ 0 < (filesByFlag flag).length
    · exact hc.1
    · rw [if_neg hc] at h
      exact absurd h (List.not_mem_nil e)
  · left
    by_cases hc : 0 < (filesByFlag flag).length ∧
        (filesByFlag flag).length ≤ max_file_count
    · rw [if_pos hc] at h
      rcases List.mem_singleton.mp h with rfl
      exact hc.2
    · rw [if_neg hc] at h
      exact absurd h (List.not_mem_nil e)

/-- Witness for `checker_display_bound`: with two requested flags and a
one-element file list, the displayed list respects the bound. -/
theorem checker_display_bound_witness :
    (("a", ["f"]) : String × List String).2.length ≤ 5 ∨
      (checker_flags (FlagsArg.many ["a", "b"])).length = 1 :=
  checker_display_bound (FlagsArg.many ["a", "b"]) (fun _ => ["f"]) 5
    ("a", ["f"]) (by decide)

/-- C4 counterexample: requesting the single flag `completed` when 31
files match and `max_file_count = 30` still displays the full 31-element
file list, exceeding the claimed bound. -/
theorem checker_single_flag_exceeds_bound :
    ∃ e ∈ checker_displayed (FlagsArg.str ("completed"))
        (fun _ => List.replicate 31 "p") 30, 30 < e.2.length := by
  refine ⟨("completed", List.replicate 31 "p"), ?_, by decide⟩
  decide

/-- C6: constructing the `runp` driver (`Collator`) for a project whose
`pipeline_interfaces` list is empty raises `MisconfigurationException`
at construction, i.e. before `__call__` could attempt any submission. -/
theorem collator_init_raises (interfacesBySample : List (String × List String))
    (h : pipeline_interfaces interfacesBySample = []) :
    collator_init interfacesBySample
      = Except.error (LooperError.misconfiguration collator_init_msg) := by
  simp [collator_init, h]

/-- Witness for `collator_init_raises`: a project with one sample and no
interfaces attached to it. -/
theorem collator_init_raises_witness :
    collator_init [("s1", [])]
      = Except.error (LooperError.misconfiguration collator_init_msg) :=
  collator_init_raises [("s1", [])] (by decide)

/-- C7: with no limit, the `Runner` loop iterates every sample; with a
non-negative limit L, it iterates exactly the first min(L, N) samples of
the project's sample sequence. -/
theorem runner_limit_iterates (samples : List String) (pif : String → List String) :
    ((runner_call samples pif none).map RunnerOutcome.iterated
        = Except.ok samples) ∧
    (∀ L : Int, 0 ≤ L →
      (runner_call samples pif (some L)).map RunnerOutcome.iterated
        = Except.ok (samples.take (min L.toNat samples.length))) := by
  constructor
  · simp [runner_call, runner_bound, Except.map, runner_foldl_iterated,
      List.take_length]
  · intro L hL
    have hneg : ¬ L < 0 := not_lt.mpr hL
    simp [runner_call, runner_bound, hneg, Except.map, runner_foldl_iterated]

/-- Witness for `runner_limit_iterates`: three samples and limit 2 give
exactly the first two samples. -/
theorem runner_limit_iterates_witness :
    (runner_call ["a", "b", "c"] (fun _ => ["p"]) (some 2)).map
        RunnerOutcome.iterated
      = Except.ok ["a", "b"] := by
  have h := (runner_limit_iterates ["a", "b", "c"] (fun _ => ["p"])).2 2 (by decide)
  rw [h]
  rfl

/-- C9: a negative sample limit makes `Runner.__call__` raise
`ValueError` while computing the bound, so the call yields no outcome:
no sample is iterated, no batch filled, no job submitted. -/
theorem runner_negative_limit (samples : List String) (pif : String → List String)
    (L : Int) (h : L < 0) :
    runner_call samples pif (some L)
      = Except.error (LooperError.valueError
          ("Invalid number of samples to run: " ++ toString L)) := by
  simp [runner_call, runner_bound, h]

/-- Witness for `runner_negative_limit` at limit -1. -/
theorem runner_negative_limit_witness :
    runner_call ["a"] (fun _ => []) (some (-1))
      = Except.error (LooperError.valueError
          ("Invalid number of samples to run: " ++ toString (-1 : Int))) :=
  runner_negative_limit ["a"] (fun _ => []) (-1) (by decide)

/-- C8: `show` increments the running count by exactly one; the returned
line carries the post-increment count i and the fixed total N in the
form "[i of N] kind: name; pipeline: pipeline_name" (wrapped in the cyan
color code and a "## " prefix); `reset` zeroes the count and leaves the
total unchanged. -/
theorem looper_counter_show_increments (c : LooperCounter)
    (name ty p : String) (hp : p ≠ "") :
    (c.show_status name ty (some p)).1.count = c.count + 1 ∧
    (c.show_status name ty (some p)).1.total = c.total ∧
    (c.show_status name ty (some p)).2
      = (Fore_CYAN ++ "## [" ++ toString (c.count + 1) ++ " of "
          ++ toString c.total ++ "] " ++ ty ++ ": " ++ name)
        ++ ("; pipeline: " ++ p) ++ Style_RESET_ALL ∧
    ((c.show_status name ty (some p)).1.reset).count = 0 ∧
    ((c.show_status name ty (some p)).1.reset).total = c.total := by
  refine ⟨rfl, rfl, ?_, rfl, rfl⟩
  simp [LooperCounter.show_status, submission_status_text, hp]

/-- Witness for `looper_counter_show_increments` at count 0, total 5. -/
theorem looper_counter_show_increments_witness :
    (LooperCounter.show_status ⟨0, 5⟩ ("s1") ("sample") (some ("pipe1"))).1.count
        = 0 + 1 ∧
    (LooperCounter.show_status ⟨0, 5⟩ ("s1") ("sample") (some ("pipe1"))).1.total
        = 5 ∧
    (LooperCounter.show_status ⟨0, 5⟩ ("s1") ("sample") (some ("pipe1"))).2
      = (Fore_CYAN ++ "## [" ++ toString (0 + 1) ++ " of "
          ++ toString 5 ++ "] " ++ "sample" ++ ": " ++ "s1")
        ++ ("; pipeline: " ++ "pipe1") ++ Style_RESET_ALL ∧
    ((LooperCounter.show_status ⟨0, 5⟩ ("s1") ("sample") (some ("pipe1"))).1.reset).count
        = 0 ∧
    ((LooperCounter.show_status ⟨0, 5⟩ ("s1") ("sample") (some ("pipe1"))).1.reset).total
        = 5 :=
  looper_counter_show_increments ⟨0, 5⟩ ("s1") ("sample") ("pipe1") (by decide)
